import Mathlib

/-!
Verification of the loam-iiif core (src/loam_iiif/iiif.py) against its
natural-language specification.

The Python code is shallowly embedded:
* JSON values (`json.loads` results) become the inductive type `Json`.
* The network/cache layer behind `IIIFClient.fetch_json` is abstracted as a
  `World`: a finite map from URL strings to fetch outcomes.  The retry/backoff
  machinery and the on-disk cache only affect *how* a document is obtained,
  not the value-level semantics studied here, so one fetch outcome per URL is
  the faithful abstraction.
* Python exception behaviour is made explicit with `Except`:  every Python
  operation that can raise (`x[0]`, `x["k"]`, `"s" in x`, iteration, `+` on
  mismatched types, attribute access on non-dicts) is modelled by a helper
  returning `Except Unit _` whose error cases are exactly the raising cases.
* The unbounded `while` loop of `get_manifests_and_collections_ids` is run on
  explicit fuel; `none` means the fuel ran out (the loop never exits by
  itself on an empty queue without producing a state).
-/

/-- A parsed JSON value, the result type of Python's `json.loads`.
Object fields are kept in order; keys are assumed unique (as produced by
`json.loads`, where later duplicate keys overwrite earlier ones). -/
inductive Json where
  | null : Json
  | bool : Bool → Json
  | num : Int → Json
  | str : String → Json
  | arr : List Json → Json
  | obj : List (String × Json) → Json

mutual

/-- Structural (Python `==`-style) equality test on JSON values. -/
def Json.beq : Json → Json → Bool
  | .null, .null => true
  | .bool a, .bool b => a == b
  | .num a, .num b => a == b
  | .str a, .str b => a == b
  | .arr xs, .arr ys => Json.beqList xs ys
  | .obj xs, .obj ys => Json.beqFields xs ys
  | _, _ => false

def Json.beqList : List Json → List Json → Bool
  | [], [] => true
  | x :: xs, y :: ys => Json.beq x y && Json.beqList xs ys
  | _, _ => false

def Json.beqFields : List (String × Json) → List (String × Json) → Bool
  | [], [] => true
  | (k1, v1) :: xs, (k2, v2) :: ys => k1 == k2 && Json.beq v1 v2 && Json.beqFields xs ys
  | _, _ => false

end

mutual

theorem Json.beq_iff : (a b : Json) → (Json.beq a b = true ↔ a = b)
  | .null, .null => by simp [Json.beq]
  | .null, .bool _ => by simp [Json.beq]
  | .null, .num _ => by simp [Json.beq]
  | .null, .str _ => by simp [Json.beq]
  | .null, .arr _ => by simp [Json.beq]
  | .null, .obj _ => by simp [Json.beq]
  | .bool _, .null => by simp [Json.beq]
  | .bool a, .bool b => by simp [Json.beq]
  | .bool _, .num _ => by simp [Json.beq]
  | .bool _, .str _ => by simp [Json.beq]
  | .bool _, .arr _ => by simp [Json.beq]
  | .bool _, .obj _ => by simp [Json.beq]
  | .num _, .null => by simp [Json.beq]
  | .num _, .bool _ => by simp [Json.beq]
  | .num a, .num b => by simp [Json.beq]
  | .num _, .str _ => by simp [Json.beq]
  | .num _, .arr _ => by simp [Json.beq]
  | .num _, .obj _ => by simp [Json.beq]
  | .str _, .null => by simp [Json.beq]
  | .str _, .bool _ => by simp [Json.beq]
  | .str _, .num _ => by simp [Json.beq]
  | .str a, .str b => by simp [Json.beq]
  | .str _, .arr _ => by simp [Json.beq]
  | .str _, .obj _ => by simp [Json.beq]
  | .arr _, .null => by simp [Json.beq]
  | .arr _, .bool _ => by simp [Json.beq]
  | .arr _, .num _ => by simp [Json.beq]
  | .arr _, .str _ => by simp [Json.beq]
  | .arr xs, .arr ys => by
      simp only [Json.beq, Json.beqList_iff xs ys]
      constructor
      · intro h; rw [h]
      · intro h; cases h; rfl
  | .arr _, .obj _ => by simp [Json.beq]
  | .obj _, .null => by simp [Json.beq]
  | .obj _, .bool _ => by simp [Json.beq]
  | .obj _, .num _ => by simp [Json.beq]
  | .obj _, .str _ => by simp [Json.beq]
  | .obj _, .arr _ => by simp [Json.beq]
  | .obj xs, .obj ys => by
      simp only [Json.beq, Json.beqFields_iff xs ys]
      constructor
      · intro h; rw [h]
      · intro h; cases h; rfl

theorem Json.beqList_iff : (xs ys : List Json) → (Json.beqList xs ys = true ↔ xs = ys)
  | [], [] => by simp [Json.beqList]
  | [], _ :: _ => by simp [Json.beqList]
  | _ :: _, [] => by simp [Json.beqList]
  | x :: xs, y :: ys => by
      simp only [Json.beqList, Bool.and_eq_true, Json.beq_iff x y, Json.beqList_iff xs ys]
      constructor
      · intro h; rw [h.1, h.2]
      · intro h; cases h; exact ⟨rfl, rfl⟩

theorem Json.beqFields_iff :
    (xs ys : List (String × Json)) → (Json.beqFields xs ys = true ↔ xs = ys)
  | [], [] => by simp [Json.beqFields]
  | [], _ :: _ => by simp [Json.beqFields]
  | _ :: _, [] => by simp [Json.beqFields]
  | (k1, v1) :: xs, (k2, v2) :: ys => by
      simp only [Json.beqFields, Bool.and_eq_true, Json.beq_iff v1 v2,
        Json.beqFields_iff xs ys, beq_iff_eq]
      constructor
      · intro h; rw [h.1.1, h.1.2, h.2]
      · intro h; cases h; exact ⟨⟨rfl, rfl⟩, rfl⟩

end

instance : DecidableEq Json := fun a b =>
  decidable_of_iff (Json.beq a b = true) (Json.beq_iff a b)

instance {e a : Type} [DecidableEq e] [DecidableEq a] : DecidableEq (Except e a) := fun x y =>
  match x, y with
  | .ok v, .ok w => decidable_of_iff (v = w) (by constructor <;> (intro h; cases h; rfl))
  | .error v, .error w => decidable_of_iff (v = w) (by constructor <;> (intro h; cases h; rfl))
  | .ok _, .error _ => isFalse (by intro h; cases h)
  | .error _, .ok _ => isFalse (by intro h; cases h)

/-- Python truthiness (`bool(x)`) for JSON values:
`None`, `False`, `0`, `""`, `[]`, and the empty dict are falsy. -/
def pyTruthy : Json → Bool
  | .null => false
  | .bool b => b
  | .num n => n != 0
  | .str s => !s.data.isEmpty
  | .arr xs => !xs.isEmpty
  | .obj fs => !fs.isEmpty

/-- First-occurrence association-list lookup, modelling `dict.get(k)`
on a dict with unique keys. -/
def jlookup (fs : List (String × Json)) (k : String) : Option Json :=
  match fs with
  | [] => none
  | (k1, v) :: rest => if k1 = k then some v else jlookup rest k

/-- A single-quote character, written via its code point. -/
def qc : String := String.singleton (Char.ofNat 39)

/-- The left curly-brace character, via its code point. -/
def lbr : String := String.singleton (Char.ofNat 123)

/-- The right curly-brace character, via its code point. -/
def rbr : String := String.singleton (Char.ofNat 125)

mutual

/-- Python `repr` of a JSON value (as used by `str()` on non-string
values); string escaping inside reprs is not reproduced, which is
irrelevant to every property below. -/
def pyRepr : Json → String
  | .null => "None"
  | .bool b => if b then "True" else "False"
  | .num n => toString n
  | .str s => qc ++ s ++ qc
  | .arr xs => "[" ++ String.intercalate ", " (pyReprList xs) ++ "]"
  | .obj fs => lbr ++ String.intercalate ", " (pyReprFields fs) ++ rbr

def pyReprList : List Json → List String
  | [] => []
  | x :: rest => pyRepr x :: pyReprList rest

def pyReprFields : List (String × Json) → List String
  | [] => []
  | (k, v) :: rest => (qc ++ k ++ qc ++ ": " ++ pyRepr v) :: pyReprFields rest

end

/-- Python `str()` of a JSON value. -/
def pyStr : Json → String
  | .str s => s
  | v => pyRepr v

/-- ASCII lower-casing, modelling `str.lower()` on the strings involved. -/
def pyLower (s : String) : String := String.mk (s.data.map Char.toLower)

/-- Splitting a character list at every occurrence of a separator,
modelling Python `str.split(sep)` for a one-character separator. -/
def splitOnChar (sep : Char) : List Char → List (List Char)
  | [] => [[]]
  | c :: rest =>
    if c = sep then [] :: splitOnChar sep rest
    else
      match splitOnChar sep rest with
      | [] => [[c]]
      | g :: gs => (c :: g) :: gs

/-- `s.split(":")[-1]`: the segment after the last colon. -/
def lastColonSeg (s : String) : String :=
  String.mk ((splitOnChar (Char.ofNat 58) s.data).getLastD s.data)

/-- Python's substring operator `needle in hay` on a list of characters:
some tail of `hay` starts with `needle`. -/
def strContainsAux (needle : List Char) : List Char → Bool
  | [] => needle.isEmpty
  | c :: rest => needle.isPrefixOf (c :: rest) || strContainsAux needle rest

/-- Python's substring operator `needle in hay` for strings. -/
def strContains (needle hay : String) : Bool := strContainsAux needle.data hay.data

/-! ## The fetch layer (`IIIFClient.fetch_json`, iiif.py lines 133-178)

`fetch_json` either returns a parsed JSON document or raises
`requests.HTTPError` (a subclass of `requests.RequestException`),
another `requests.RequestException`, or `ValueError`
(`json.JSONDecodeError` included).  A `World` fixes one outcome per URL,
abstracting network, retries and the cache.  Fetching a non-string URL
(possible, since item ids are arbitrary JSON values) raises inside
`requests` and is modelled as a request error, as is an unknown URL. -/

/-- The error kinds `fetch_json` can raise. -/
inductive FetchErr where
  | http : FetchErr
  | request : FetchErr
  | badJson : FetchErr
deriving DecidableEq

/-- A fixed assignment of fetch outcomes to URLs. -/
def World : Type := List (String × Except FetchErr Json)

/-- Outcome lookup for `fetch_json` in a given world. -/
def wlookup (w : World) (s : String) : Except FetchErr Json :=
  match w with
  | [] => .error .request
  | (u, r) :: rest => if u = s then r else wlookup rest s

/-- `fetch_json(url)`: one outcome per URL; non-string URLs fail inside
the transport layer with a `RequestException`. -/
def fetch_json (w : World) (url : Json) : Except FetchErr Json :=
  match url with
  | .str s => wlookup w s
  | _ => .error .request

/-! ## Python operations used by the traversal and the synthesizer -/

/-- Python `for x in v`: lists yield elements, strings yield one-character
strings, dicts yield their keys; `None`, booleans and numbers raise
`TypeError`. -/
def pyIterate : Json → Except Unit (List Json)
  | .arr xs => .ok xs
  | .str s => .ok (s.data.map (fun c => Json.str (String.singleton c)))
  | .obj fs => .ok (fs.map (fun p => Json.str p.1))
  | _ => .error ()

/-- Python `a + b` for the two JSON shapes that support it (list/list and
str/str); every other combination raises `TypeError`. -/
def pyAdd : Json → Json → Except Unit Json
  | .arr xs, .arr ys => .ok (.arr (xs ++ ys))
  | .str s, .str t => .ok (.str (s ++ t))
  | _, _ => .error ()

/-- Python subscript `v[k]` with a string key: only dicts support it
(`KeyError` when the key is missing; `TypeError` on every other shape). -/
def pySubscript : Json → String → Except Unit Json
  | .obj fs, k =>
    (match jlookup fs k with
     | some x => .ok x
     | none => .error ())
  | _, _ => .error ()

/-- Python subscript `v[0]`: lists and strings index (raising `IndexError`
when empty); dicts raise `KeyError` (string keys only); the rest raise
`TypeError`. -/
def pyIndexZero : Json → Except Unit Json
  | .arr (x :: _) => .ok x
  | .str s => match s.data with
      | c :: _ => .ok (.str (String.singleton c))
      | [] => .error ()
  | _ => .error ()

/-- Python membership `k in v` for a string `k`: substring test on strings,
element test on lists, key test on dicts; `TypeError` otherwise. -/
def pyInOp (k : String) : Json → Except Unit Bool
  | .str s => .ok (strContains k s)
  | .arr xs => .ok (xs.contains (.str k))
  | .obj fs => .ok ((fs.map Prod.fst).contains k)
  | _ => .error ()

/-! ## Item normalization (iiif.py lines 95-131) -/

/-- `IIIFClient._normalize_item_type` (iiif.py lines 116-131):
`type = item.get("type") or item.get("@type")`; if the result is a list,
take its first element (raising `IndexError` on an empty list); then
`str(type).lower().split(":")[-1] if type else ""`.  Calling `.get` on a
non-dict item raises `AttributeError`. -/
def normalize_item_type : Json → Except Unit String
  | .obj fs =>
    let a := (jlookup fs "type").getD .null
    let t := if pyTruthy a then a else (jlookup fs "@type").getD .null
    match t with
    | .arr [] => .error ()
    | .arr (x :: _) =>
        .ok (if pyTruthy x then lastColonSeg (pyLower (pyStr x)) else "")
    | v => .ok (if pyTruthy v then lastColonSeg (pyLower (pyStr v)) else "")
  | _ => .error ()

/-- `IIIFClient._normalize_item_id` (iiif.py lines 95-114):
`id = item.get("id") or item.get("@id")`; a falsy id is logged and
dropped (`None` returned).  `.get` on a non-dict raises. -/
def normalize_item_id : Json → Except Unit (Option Json)
  | .obj fs =>
    let a := (jlookup fs "id").getD .null
    let v := if pyTruthy a then a else (jlookup fs "@id").getD .null
    .ok (if pyTruthy v then some v else none)
  | _ => .error ()

/-! ## Per-collection processing (iiif.py lines 211-236) -/

/-- Line 212: `items = data.get("items") or
(data.get("collections", []) + data.get("manifests", []))`.
A truthy `items` value wins; otherwise the two legacy fields (defaulting
to `[]`) are concatenated with Python `+`.  `.get` on a non-dict raises. -/
def extractItems : Json → Except Unit Json
  | .obj fs =>
    let a := (jlookup fs "items").getD .null
    if pyTruthy a then .ok a
    else pyAdd ((jlookup fs "collections").getD (.arr []))
               ((jlookup fs "manifests").getD (.arr []))
  | _ => .error ()

/-- The list comprehension
`[item for item in items if needle in self._normalize_item_type(item)]`
(lines 214 and 227): evaluated left to right, raising at the first item
whose type normalization raises. -/
def classifyFilter (needle : String) : List Json → Except Unit (List Json)
  | [] => .ok []
  | it :: rest =>
    match normalize_item_type it, classifyFilter needle rest with
    | .ok ty, .ok tail => .ok (if strContains needle ty then it :: tail else tail)
    | .error e, _ => .error e
    | .ok _, .error e => .error e

/-- The comprehension `[self._normalize_item_id(item, url) for item in xs]`
(lines 215 and 228). -/
def mapItemIds : List Json → Except Unit (List (Option Json))
  | [] => .ok []
  | it :: rest =>
    match normalize_item_id it, mapItemIds rest with
    | .ok v, .ok tail => .ok (v :: tail)
    | .error e, _ => .error e
    | .ok _, .error e => .error e

/-- One collection document's extraction step (lines 211-236, minus the
mutation of traversal state): child-item list, manifest ids
(`filter(None, ...)` drops the `None`s), nested collection ids.
All raising sub-steps happen before any traversal-state mutation in the
source, so bundling them is faithful. -/
def processDoc (data : Json) : Except Unit (List Json × List Json) :=
  match extractItems data with
  | .error e => .error e
  | .ok itemsv =>
    match pyIterate itemsv with
    | .error e => .error e
    | .ok items =>
      match classifyFilter "manifest" items with
      | .error e => .error e
      | .ok manifest_items =>
        match mapItemIds manifest_items with
        | .error e => .error e
        | .ok manifest_ids0 =>
          match classifyFilter "collection" items with
          | .error e => .error e
          | .ok nested_items =>
            match mapItemIds nested_items with
            | .error e => .error e
            | .ok nested_ids0 =>
              .ok (manifest_ids0.filterMap id, nested_ids0.filterMap id)

/-! ## The traversal engine
(`IIIFClient.get_manifests_and_collections_ids`, iiif.py lines 180-253)

`manifest_ids` and `collection_ids` are Python `set`s.  A Python set
raises `TypeError` when asked to hash an unhashable value (a dict or a
list), and compares members with `==`, which identifies `True` with `1`
and `False` with `0` (`bool` is a subclass of `int`).  The sets are
modelled as insertion-ordered lists deduplicated by that equality, with
the hashability check made explicit:
* `x in s` (line 201) raises on an unhashable `x` — and at line 201 this
  raise is *outside* every `try`, so it aborts the whole call;
* `s.update(xs)` (line 217) adds elements left to right and raises at
  the first unhashable one, keeping the already-added prefix — this
  raise is caught at line 242;
* `s.add(x)` (line 239) is only reached with the hashable popped URL. -/

/-- Is a JSON value hashable as a Python value?  `None`, booleans,
numbers and strings are; lists and dicts are not. -/
def hashable : Json → Bool
  | .arr _ => false
  | .obj _ => false
  | _ => true

/-- Python `==` between set members (always hashable): identifies
`True` with `1` and `False` with `0`. -/
def pyEqKey : Json → Json → Bool
  | .null, .null => true
  | .bool a, .bool b => a == b
  | .num a, .num b => a == b
  | .str a, .str b => a == b
  | .bool a, .num n => (if a then (1 : Int) else 0) == n
  | .num n, .bool a => n == (if a then (1 : Int) else 0)
  | _, _ => false

/-- Membership of `x` in the member list of a set, by Python `==`. -/
def pyMemB (x : Json) (l : List Json) : Bool := l.any (fun y => pyEqKey x y)

/-- `x in s` for a Python set: `TypeError` when `x` is unhashable. -/
def pySetContains (l : List Json) (x : Json) : Except Unit Bool :=
  if hashable x then .ok (pyMemB x l) else .error ()

/-- `s.add(x)` for a hashable `x` (the only way it is called here). -/
def pySetInsert (l : List Json) (x : Json) : List Json :=
  if pyMemB x l then l else l ++ [x]

/-- `s.update(xs)` (line 217): add left to right; at the first
unhashable element stop with the prefix already added and report the
raise (`true` = a `TypeError` escaped `update`). -/
def pySetUpdate (l : List Json) : List Json → List Json × Bool
  | [] => (l, false)
  | x :: rest =>
    if hashable x then pySetUpdate (pySetInsert l x) rest else (l, true)

/-- Line 219: `if max_manifests and len(manifest_ids) >= max_manifests`.
`max_manifests = 0` is falsy, so the guard never fires for it. -/
def maxReached (mmax : Option Nat) (n : Nat) : Bool :=
  match mmax with
  | none => false
  | some m => decide (m ≠ 0) && decide (m ≤ n)

/-- Final truncation `list(manifest_ids)[:max_manifests]` (line 246):
a `None` bound keeps everything; `0` keeps nothing. -/
def pyTruncate (mmax : Option Nat) (l : List Json) : List Json :=
  match mmax with
  | none => l
  | some m => l.take m

/-- The mutable state of one traversal call, plus a ghost log of every URL
passed to `fetch_json` (for stating the at-most-once-fetch properties). -/
structure TravState where
  queue : List Json
  manifest_ids : List Json
  collection_ids : List Json
  fetchLog : List Json
deriving DecidableEq

/-- Outcome of one `while` iteration: continue looping, `break`, or an
uncaught exception aborting the whole call (the line 201 `TypeError` on
an unhashable popped URL). -/
inductive StepRes where
  | cont : TravState → StepRes
  | brk : TravState → StepRes
  | abort : StepRes
deriving DecidableEq

/-- The state carried by a step outcome (`st0` for an abort, whose state
is discarded by the raise). -/
def stepStateD (st0 : TravState) : StepRes → TravState
  | .cont st => st
  | .brk st => st
  | .abort => st0

/-- The tail of one loop iteration once the `manifest_ids.update` result
is known (iiif.py lines 217-244).  If `update` raised (second component
`true`), the partial set is kept, the exception is caught at line 242
and the loop `continue`s: the max check, the enqueueing and the
visited-marking are all skipped.  Otherwise the max-manifests guard may
`break` (lines 219-221) before the URL is marked visited and the
children enqueued (lines 236-239). -/
def travStepUpdated (mmax : Option Nat) (url : Json) (st1 : TravState)
    (cids : List Json) : List Json × Bool → StepRes
  | (m2, true) => .cont { st1 with manifest_ids := m2 }
  | (m2, false) =>
    let st2 : TravState := { st1 with manifest_ids := m2 }
    if maxReached mmax m2.length then .brk st2
    else .cont { st2 with queue := st2.queue ++ cids,
                          collection_ids := pySetInsert st2.collection_ids url }

/-- The tail of one loop iteration once the extraction outcome for the
fetched document is known (iiif.py lines 211-244): a processing error
logs and `continue`s (lines 242-244); on success `manifest_ids.update`
runs (line 217). -/
def travStepProcessed (mmax : Option Nat) (url : Json) (st1 : TravState) :
    Except Unit (List Json × List Json) → StepRes
  | .error _ => .cont st1
  | .ok (mids, cids) =>
    travStepUpdated mmax url st1 cids (pySetUpdate st1.manifest_ids mids)

/-- The tail of one loop iteration once the fetch outcome is known
(iiif.py lines 205-244): a fetch error logs and `continue`s without
marking the URL visited (lines 207-209). -/
def travStepFetched (mmax : Option Nat) (url : Json) (st1 : TravState) :
    Except FetchErr Json → StepRes
  | .error _ => .cont st1
  | .ok data => travStepProcessed mmax url st1 (processDoc data)

/-- The tail of one loop iteration once the visited test (line 201) is
known: its `TypeError` on an unhashable URL is outside every `try` and
aborts the call; a visited URL is skipped; otherwise the URL is fetched
(the ghost `fetchLog` records the `fetch_json` call of line 206). -/
def travStepChecked (w : World) (mmax : Option Nat) (url : Json) (st : TravState) :
    Except Unit Bool → StepRes
  | .error _ => .abort
  | .ok true => .cont st
  | .ok false =>
    travStepFetched mmax url { st with fetchLog := st.fetchLog ++ [url] }
      (fetch_json w url)

/-- One iteration of the `while collection_urls_queue` loop
(iiif.py lines 199-244), after popping `url`; `st.queue` is the rest. -/
def travStep (w : World) (mmax : Option Nat) (url : Json) (st : TravState) : StepRes :=
  travStepChecked w mmax url st (pySetContains st.collection_ids url)

/-- The `while` loop on explicit fuel (one unit per popped URL); an empty
queue terminates regardless of remaining fuel.  `none` is exhausted
fuel; `some (.error ())` is the call aborting with the uncaught line 201
`TypeError`; `some (.ok st)` is a normal return. -/
def travRun (w : World) (mmax : Option Nat) : Nat → TravState → Option (Except Unit TravState)
  | 0, st =>
    match st.queue with
    | [] => some (.ok st)
    | _ :: _ => none
  | fuel + 1, st =>
    match st.queue with
    | [] => some (.ok st)
    | url :: rest =>
      match travStep w mmax url { st with queue := rest } with
      | .cont st2 => travRun w mmax fuel st2
      | .brk st2 => some (.ok st2)
      | .abort => some (.error ())

/-- The initial traversal state for a root URL (lines 193-196). -/
def initState (root : Json) : TravState :=
  { queue := [root], manifest_ids := [], collection_ids := [], fetchLog := [] }

/-- `IIIFClient.get_manifests_and_collections_ids` (iiif.py lines
180-253): run the loop, then return the truncated manifest list and the
visited collection list; an aborting run propagates its exception. -/
def get_manifests_and_collections_ids (w : World) (collection_url : Json)
    (max_manifests : Option Nat) (fuel : Nat) :
    Option (Except Unit (List Json × List Json)) :=
  (travRun w max_manifests fuel (initState collection_url)).map
    (fun r => r.map
      (fun st => (pyTruncate max_manifests st.manifest_ids, st.collection_ids)))

/-- Did `fetch_json` succeed on `u`, the resulting document extract
without raising, and the extracted manifest ids all hash (so that
`manifest_ids.update` at line 217 cannot raise either)?  (Used to state
the amended at-most-once-fetch law.) -/
def okFetched (w : World) (u : Json) : Bool :=
  match fetch_json w u with
  | .error _ => false
  | .ok d =>
    match processDoc d with
    | .ok (mids, _) => mids.all hashable
    | .error _ => false

/-! ## The image URL synthesizer
(`IIIFClient.get_manifest_images`, iiif.py lines 255-380)

The outer `try`/`except` (lines 270, 378-380) logs and re-raises, so it is
semantically transparent: any error raised in the body propagates to the
caller and is modelled as `.error ()`. -/

/-- `Except.isOk` as used below. -/
def exOk {ε α : Type} : Except ε α → Bool
  | .ok _ => true
  | .error _ => false

/-! ## Lenient JSON pre-parsing (`TrailingCommaJSONDecoder`, iiif.py
lines 18-27)

`decode` runs `re.sub(r',(\s*[\]\}])', <group 1>, s)` over the raw body
and hands the result to the ordinary JSON decoder.  `re.sub` scans left
to right; on a match it emits the group (the whitespace plus the closing
delimiter, dropping the comma) and resumes after the match. -/

/-- The character class `\s` of Python's `re` for the ASCII range
(space, tab, newline, carriage return, vertical tab, form feed). -/
def pyWS (c : Char) : Bool :=
  c = ' ' || c = Char.ofNat 9 || c = Char.ofNat 10 || c = Char.ofNat 13 ||
    c = Char.ofNat 11 || c = Char.ofNat 12

/-- The character class `[\]\}]`: a closing array or object delimiter. -/
def closeDelim (c : Char) : Bool := c = ']' || c = Char.ofNat 125

/-- Matching `(\s*[\]\}])` at the head of `l`: the maximal whitespace run,
the closing delimiter, and the remainder. -/
def wsCloseSplit (l : List Char) : Option (List Char × Char × List Char) :=
  match l.dropWhile pyWS with
  | d :: tail => if closeDelim d then some (l.takeWhile pyWS, d, tail) else none
  | [] => none

theorem dropWhile_len_le (p : Char → Bool) : (l : List Char) → (l.dropWhile p).length ≤ l.length
  | [] => by simp
  | c :: rest => by
      simp only [List.dropWhile]
      split
      · exact Nat.le_trans (dropWhile_len_le p rest) (Nat.le_succ _)
      · simp

theorem wsCloseSplit_len {l ws tail : List Char} {d : Char}
    (h : wsCloseSplit l = some (ws, d, tail)) : tail.length < l.length := by
  unfold wsCloseSplit at h
  split at h
  case h_1 d1 t1 hd =>
    split at h
    · cases h
      have h1 : (l.dropWhile pyWS).length ≤ l.length := dropWhile_len_le pyWS l
      rw [hd] at h1
      simp only [List.length_cons] at h1
      omega
    · cases h
  case h_2 => cases h

/-- `TrailingCommaJSONDecoder`'s `re.sub` pass (iiif.py line 26): each
comma immediately followed by optional whitespace and a closing delimiter
is dropped, the scan resuming after the matched delimiter. -/
def fixTrailingCommas : List Char → List Char
  | [] => []
  | c :: rest =>
    if c = Char.ofNat 44 then
      match h : wsCloseSplit rest with
      | some (ws, d, tail) => ws ++ d :: fixTrailingCommas tail
      | none => c :: fixTrailingCommas rest
    else c :: fixTrailingCommas rest
termination_by l => l.length
decreasing_by
  · have := wsCloseSplit_len h
    simp only [List.length_cons]
    omega
  · simp
  · simp

/-- `TrailingCommaJSONDecoder.decode`: repair, then ordinary JSON parsing
(the parser itself is an opaque parameter). -/
def decodeLenient (parse : List Char → Option Json) (s : List Char) : Option Json :=
  parse (fixTrailingCommas s)

/-- Spec-side test: ignoring whitespace, the next character closes an
array or object. -/
def specCommaDoomed (l : List Char) : Bool :=
  match l.dropWhile pyWS with
  | d :: _ => closeDelim d
  | [] => false

/-- Modelled from the spec's words (spec §4.1): "any comma immediately
followed (ignoring whitespace) by a closing array/object delimiter, at
any nesting depth, is stripped", and nothing else changes.  Each comma is
tested against the original characters that follow it. -/
def specStripCommas : List Char → List Char
  | [] => []
  | c :: rest =>
    if c = Char.ofNat 44 && specCommaDoomed rest then specStripCommas rest
    else c :: specStripCommas rest

theorem wsCloseSplit_some {l ws tail : List Char} {d : Char}
    (h : wsCloseSplit l = some (ws, d, tail)) :
    l = ws ++ d :: tail ∧ (∀ c ∈ ws, pyWS c = true) ∧ closeDelim d = true := by
  unfold wsCloseSplit at h
  split at h
  case h_1 d1 t1 hd =>
    split at h
    case isTrue hc =>
      cases h
      refine ⟨?_, ?_, hc⟩
      · conv_lhs => rw [← List.takeWhile_append_dropWhile (p := pyWS) (l := l)]
        rw [hd]
      · intro c hcmem
        exact List.mem_takeWhile_imp hcmem
    case isFalse => cases h
  case h_2 => cases h

theorem specCommaDoomed_isSome (l : List Char) :
    specCommaDoomed l = (wsCloseSplit l).isSome := by
  unfold specCommaDoomed wsCloseSplit
  cases hd : l.dropWhile pyWS with
  | nil => simp
  | cons d t => cases hcl : closeDelim d <;> simp [hcl]

theorem pyWS_ne_comma {c : Char} (h : pyWS c = true) : ¬ c = Char.ofNat 44 := by
  intro he
  subst he
  exact absurd h (by decide)

theorem closeDelim_ne_comma {d : Char} (h : closeDelim d = true) : ¬ d = Char.ofNat 44 := by
  intro he
  subst he
  exact absurd h (by decide)

theorem specStrip_skip_ws_close {ws : List Char} {d : Char} (tail : List Char)
    (hws : ∀ c ∈ ws, pyWS c = true) (hd : closeDelim d = true) :
    specStripCommas (ws ++ d :: tail) = ws ++ d :: specStripCommas tail := by
  induction ws with
  | nil =>
    simp only [List.nil_append]
    rw [specStripCommas]
    simp [closeDelim_ne_comma hd]
  | cons c cs ih =>
    have hc := pyWS_ne_comma (hws c (by simp))
    simp only [List.cons_append]
    rw [specStripCommas]
    simp only [hc, decide_False, Bool.false_and, Bool.false_eq_true, if_false]
    rw [ih (fun x hx => hws x (by simp [hx]))]

theorem fixTrailingCommas_eq_spec : ∀ l : List Char,
    fixTrailingCommas l = specStripCommas l := by
  intro l
  induction l using fixTrailingCommas.induct with
  | case1 =>
    rw [fixTrailingCommas, specStripCommas]
  | case2 rest ws d tail hsp ih =>
    obtain ⟨hdecomp, hws, hd⟩ := wsCloseSplit_some hsp
    rw [fixTrailingCommas]
    split
    case isFalse hcomma => exact absurd rfl hcomma
    case isTrue =>
      split
      case h_1 ws1 d1 t1 heq =>
        rw [hsp] at heq
        injection heq with heq2
        cases heq2
        rw [specStripCommas]
        have hdoom : specCommaDoomed rest = true := by
          rw [specCommaDoomed_isSome, hsp]
          rfl
        simp only [hdoom, decide_True, Bool.and_true, Bool.true_and, if_pos]
        rw [hdecomp, specStrip_skip_ws_close tail hws hd, ih]
      case h_2 heq =>
        rw [hsp] at heq
        cases heq
  | case3 rest hsp ih =>
    rw [fixTrailingCommas]
    split
    case isFalse hcomma => exact absurd rfl hcomma
    case isTrue =>
      split
      case h_1 ws1 d1 t1 heq =>
        rw [hsp] at heq
        cases heq
      case h_2 heq =>
        rw [specStripCommas]
        have hdoom : specCommaDoomed rest = false := by
          rw [specCommaDoomed_isSome, hsp]
          rfl
        simp only [hdoom, Bool.and_false, Bool.false_eq_true, if_false]
        rw [ih]
  | case4 c rest hc ih =>
    rw [fixTrailingCommas]
    rw [if_neg hc, specStripCommas]
    simp only [hc, decide_False, Bool.false_and, Bool.false_eq_true, if_false]
    rw [ih]

/-- The IIIF Presentation API 2.0 context string (line 277). -/
def v2ctx : String := "http://iiif.io/api/presentation/2/context.json"

/-- The IIIF Presentation API 3.0 context string (line 276). -/
def v3ctx : String := "http://iiif.io/api/presentation/3/context.json"

/-- The characters of a string before the first occurrence of `needle`
(the whole string when there is none): `s.split(needle)[0]`. -/
def beforeSub (needle : List Char) : List Char → List Char
  | [] => []
  | c :: rest =>
    if needle.isPrefixOf (c :: rest) then []
    else c :: beforeSub needle rest

/-- Lines 306-310: `image_id = body["id"]`, then
`if '/full/' in image_id: image_id = image_id.split('/full/')[0]`.
The membership test raises `TypeError` on `None`/bool/int values, and
`.split` raises `AttributeError` on non-strings that pass it. -/
def v3StripFull (v : Json) : Except Unit Json := do
  let b ← pyInOp "/full/" v
  if b then
    match v with
    | .str s => .ok (.str (String.mk (beforeSub "/full/".data s.data)))
    | _ => .error ()
  else .ok v

/-- The body-inspection step of the v3 walk (lines 300-324) for one
annotation with a dict `body`: compute the appended ids (possibly `null`,
line 321-322). -/
def v3BodyIds (bfs : List (String × Json)) : Except Unit (List Json) := do
  let image_id ← match jlookup bfs "id" with
    | some v => v3StripFull v
    | none => .ok Json.null
  match jlookup bfs "service" with
  | some sv =>
    if !pyTruthy image_id then
      let sv1 := match sv with
        | .arr (x :: _) => x
        | other => other
      match sv1 with
      | .obj sfs =>
        let a := (jlookup sfs "@id").getD .null
        .ok [if pyTruthy a then a else (jlookup sfs "id").getD .null]
      | _ => .ok []
    else if pyTruthy image_id then .ok [image_id] else .ok []
  | none =>
    if pyTruthy image_id then .ok [image_id] else .ok []

/-- The v3 structural walk (lines 281-325): canvases from `items`,
annotation pages from each canvas's `items`, annotations from each page's
`items`; non-dict entries are skipped by `isinstance` checks; a dict
`body` contributes via `v3BodyIds`.  Any raise here is caught at line 326
and turned into an empty result by the caller. -/
def v3CollectIds (data : Json) : Except Unit (List Json) := do
  match data with
  | .obj fs =>
    let canvases ← pyIterate ((jlookup fs "items").getD (.arr []))
    canvases.foldlM (fun acc canvas => do
      match canvas with
      | .obj cfs =>
        let pages ← pyIterate ((jlookup cfs "items").getD (.arr []))
        pages.foldlM (fun acc2 page => do
          match page with
          | .obj pfs =>
            let annos ← pyIterate ((jlookup pfs "items").getD (.arr []))
            annos.foldlM (fun acc3 anno => do
              match anno with
              | .obj afs =>
                match (jlookup afs "body").getD (.obj []) with
                | .obj bfs => do
                  let ids ← v3BodyIds bfs
                  .ok (acc3 ++ ids)
                | _ => .ok acc3
              | _ => .ok acc3) acc2
          | _ => .ok acc2) acc
      | _ => .ok acc) []
  | _ => .error ()

/-- The v2 structural walk (lines 330-347).  There are no `isinstance`
guards here: `data["sequences"][0]["canvases"]`, the `"images" in canvas`
test, `image.get("resource", {})`, and in the fallback branch
`image["resource"]` (a plain subscript that raises `KeyError` when the
key is absent) can all raise, and such raises propagate out of
`get_manifest_images` via the re-raising handler at lines 378-380. -/
def v2CollectIds (data : Json) : Except Unit (List Json) := do
  match data with
  | .obj fs =>
    match jlookup fs "sequences" with
    | none => .ok []
    | some seqv => do
      let s0 ← pyIndexZero seqv
      let cv ← pySubscript s0 "canvases"
      let canvases ← pyIterate cv
      canvases.foldlM (fun acc canvas => do
        let hasIm ← pyInOp "images" canvas
        if hasIm then do
          let imgsv ← pySubscript canvas "images"
          let imgs ← pyIterate imgsv
          imgs.foldlM (fun acc2 image => do
            match image with
            | .obj _ => do
              let resource := (← match image with
                | .obj ifs => pure ((jlookup ifs "resource").getD (.obj []))
                | _ => Except.error ())
              let hasId ← pyInOp "@id" resource
              if hasId then do
                let iid ← pySubscript resource "@id"
                let b ← pyInOp "/full/" iid
                let iid2 ← (if b then
                    match iid with
                    | .str s => Except.ok (Json.str (String.mk (beforeSub "/full/".data s.data)))
                    | _ => Except.error ()
                  else .ok iid)
                .ok (acc2 ++ [iid2])
              else do
                let r2 ← pySubscript image "resource"
                let service ← (match r2 with
                  | .obj rfs => Except.ok ((jlookup rfs "service").getD (.obj []))
                  | _ => Except.error ())
                let hasSid ← pyInOp "@id" service
                if hasSid then do
                  let sv ← pySubscript r2 "service"
                  let sid ← pySubscript sv "@id"
                  .ok (acc2 ++ [sid])
                else .ok acc2
            | _ => .error ()) acc
        else .ok acc) []
  | _ => .error ()

/-- Strip one trailing occurrence of `suf`, modelling the anchored
`re.sub(r'/info\.json$', '', image_id)` of line 362. -/
def stripSuffixChars (suf l : List Char) : List Char :=
  if suf.isSuffixOf l then l.take (l.length - suf.length) else l

/-- A digit run followed by a comma and a digit run: the regex `\d+,\d+`
(ASCII digits; the claims never exercise non-ASCII digits). -/
def whTok (l : List Char) : Bool :=
  let d1 := l.takeWhile Char.isDigit
  match l.drop d1.length with
  | c :: d2 => !d1.isEmpty && c = Char.ofNat 44 && !d2.isEmpty && d2.all Char.isDigit
  | [] => false

/-- The size-token alternatives `max|full|!\d+,\d+|\d+,\d+` of the
already-formatted test at line 364. -/
def sizeTok (l : List Char) : Bool :=
  l = "max".data || l = "full".data ||
    (match l with
     | c :: rest => c = Char.ofNat 33 && whTok rest
     | [] => false) ||
    whTok l

/-- Does some position of `l` start `/full/` with the entire remainder a
size token?  Together with the suffix test below this is
`re.search(r'/full/(?:max|full|!\d+,\d+|\d+,\d+)/0/default\.jpg$', s)`. -/
def scanFull : List Char → Bool
  | [] => false
  | c :: rest =>
    ("/full/".data.isPrefixOf (c :: rest) && sizeTok ((c :: rest).drop 6)) || scanFull rest

/-- The already-fully-formatted test of line 364. -/
def fullSuffixCheck (l : List Char) : Bool :=
  "/0/default.jpg".data.isSuffixOf l &&
    scanFull (l.take (l.length - "/0/default.jpg".data.length))

/-- One iteration of the URL-formatting loop (lines 357-374).  The loop
body is wrapped in a per-item `try`/`except` that skips the item on any
error: an explicit `TypeError` for `None` (lines 359-360), and `re.sub`
raising `TypeError` for every other non-string id. -/
def formatOne (is_v2 : Bool) (width height : Int) (format : String)
    (exact use_max : Bool) (imageId : Json) : Option String :=
  match imageId with
  | .str s =>
    let s1 := String.mk (stripSuffixChars "/info.json".data s.data)
    if fullSuffixCheck s1.data then some s1
    else
      let size_param :=
        if use_max then (if is_v2 then "full" else "max")
        else (if exact then "" else "!") ++ toString width ++ "," ++ toString height
      some (s1 ++ "/full/" ++ size_param ++ "/0/default." ++ format)
  | _ => none

/-- The URL-formatting loop over all collected ids (lines 356-376). -/
def formatPhase (is_v2 : Bool) (width height : Int) (format : String)
    (exact use_max : Bool) (ids : List Json) : List String :=
  ids.filterMap (formatOne is_v2 width height format exact use_max)

/-- `IIIFClient.get_manifest_images` (iiif.py lines 255-380).  `.error ()`
models an exception reaching the caller (re-raised at line 380); the
version dispatch compares `@context` against the two context strings;
an unrecognized context yields `[]` (lines 348-350); all errors inside
the v3 walk yield `[]` (lines 326-328); errors inside the v2 walk
propagate. -/
def getManifestImagesFetched (width height : Int) (format : String)
    (exact use_max : Bool) : Except FetchErr Json → Except Unit (List String)
  | .ok (.obj fs) =>
    let context := (jlookup fs "@context").getD .null
    if context = Json.str v3ctx then
      match v3CollectIds (Json.obj fs) with
      | .error _ => .ok []
      | .ok image_ids =>
        if image_ids.isEmpty then .ok []
        else .ok (formatPhase false width height format exact use_max image_ids)
    else if context = Json.str v2ctx then
      match v2CollectIds (Json.obj fs) with
      | .error e => .error e
      | .ok image_ids =>
        if image_ids.isEmpty then .ok []
        else .ok (formatPhase true width height format exact use_max image_ids)
    else .ok []
  | _ => .error ()

/-- `IIIFClient.get_manifest_images` proper: fetch, then dispatch.  A
fetch error propagates (re-raised at line 380), as does the
`AttributeError` from `data.get` when the body is not a JSON object. -/
def get_manifest_images (w : World) (manifest_url : Json) (width height : Int)
    (format : String) (exact use_max : Bool) : Except Unit (List String) :=
  getManifestImagesFetched width height format exact use_max
    (fetch_json w manifest_url)

/-! ## Traversal lemmas -/

theorem pyEqKey_refl {u : Json} (h : hashable u = true) : pyEqKey u u = true := by
  cases u with
  | null => rfl
  | bool b => simp [pyEqKey]
  | num n => simp [pyEqKey]
  | str s => simp [pyEqKey]
  | arr xs => exact absurd h (by simp [hashable])
  | obj fs => exact absurd h (by simp [hashable])

theorem mem_pySetInsert_of_mem {l : List Json} {a : Json} (x : Json) (h : a ∈ l) :
    a ∈ pySetInsert l x := by
  unfold pySetInsert
  split
  · exact h
  · exact List.mem_append_left _ h

theorem pyMemB_insert_mono {u x : Json} {l : List Json} (h : pyMemB u l = true) :
    pyMemB u (pySetInsert l x) = true := by
  unfold pySetInsert
  split
  · exact h
  · unfold pyMemB at h ⊢
    rw [List.any_append, h]
    rfl

theorem pyMemB_insert_self {x : Json} (l : List Json) (h : hashable x = true) :
    pyMemB x (pySetInsert l x) = true := by
  unfold pySetInsert
  split
  case isTrue hm => exact hm
  case isFalse hm =>
    unfold pyMemB
    rw [List.any_append]
    simp [pyEqKey_refl h]

theorem pySetUpdate_all_hashable : ∀ (xs l : List Json), xs.all hashable = true →
    (pySetUpdate l xs).2 = false := by
  intro xs
  induction xs with
  | nil => intro l h; rfl
  | cons x rest ih =>
    intro l h
    simp only [List.all_cons, Bool.and_eq_true] at h
    rw [pySetUpdate, if_pos h.1]
    exact ih _ h.2

theorem some_ok_inj {a b : TravState}
    (h : (some (Except.ok a) : Option (Except Unit TravState)) = some (.ok b)) :
    a = b := by
  injection h with h1
  injection h1 with h2

theorem some_err_not_ok {b : TravState}
    (h : (some (Except.error ()) : Option (Except Unit TravState)) = some (.ok b)) :
    False := by
  injection h with h1
  injection h1

theorem travStep_cases (w : World) (mmax : Option Nat) (url : Json) (st : TravState) :
    (hashable url = false ∧ travStep w mmax url st = .abort) ∨
    (hashable url = true ∧ pyMemB url st.collection_ids = true ∧
        travStep w mmax url st = .cont st) ∨
    (hashable url = true ∧ pyMemB url st.collection_ids = false ∧
        ∃ e, fetch_json w url = .error e ∧
        travStep w mmax url st = .cont { st with fetchLog := st.fetchLog ++ [url] }) ∨
    (hashable url = true ∧ pyMemB url st.collection_ids = false ∧
        ∃ d, fetch_json w url = .ok d ∧ processDoc d = .error () ∧
        travStep w mmax url st = .cont { st with fetchLog := st.fetchLog ++ [url] }) ∨
    (hashable url = true ∧ pyMemB url st.collection_ids = false ∧
        ∃ d mids cids m2, fetch_json w url = .ok d ∧
        processDoc d = .ok (mids, cids) ∧
        pySetUpdate st.manifest_ids mids = (m2, true) ∧
        travStep w mmax url st = .cont { st with
          manifest_ids := m2,
          fetchLog := st.fetchLog ++ [url] }) ∨
    (hashable url = true ∧ pyMemB url st.collection_ids = false ∧
        ∃ d mids cids m2, fetch_json w url = .ok d ∧
        processDoc d = .ok (mids, cids) ∧
        pySetUpdate st.manifest_ids mids = (m2, false) ∧
        maxReached mmax m2.length = true ∧
        travStep w mmax url st = .brk { st with
          manifest_ids := m2,
          fetchLog := st.fetchLog ++ [url] }) ∨
    (hashable url = true ∧ pyMemB url st.collection_ids = false ∧
        ∃ d mids cids m2, fetch_json w url = .ok d ∧
        processDoc d = .ok (mids, cids) ∧
        pySetUpdate st.manifest_ids mids = (m2, false) ∧
        maxReached mmax m2.length = false ∧
        travStep w mmax url st = .cont { st with
          queue := st.queue ++ cids,
          manifest_ids := m2,
          collection_ids := pySetInsert st.collection_ids url,
          fetchLog := st.fetchLog ++ [url] }) := by
  by_cases hh : hashable url = true
  case neg =>
    left
    have hh2 : hashable url = false := by
      revert hh
      cases hashable url <;> simp
    refine ⟨hh2, ?_⟩
    unfold travStep pySetContains
    rw [if_neg hh]
    rfl
  case pos =>
    have hcont : pySetContains st.collection_ids url = .ok (pyMemB url st.collection_ids) := by
      unfold pySetContains
      rw [if_pos hh]
    by_cases hm : pyMemB url st.collection_ids = true
    · right; left
      refine ⟨hh, hm, ?_⟩
      unfold travStep
      rw [hcont, hm, travStepChecked]
    · have hm2 : pyMemB url st.collection_ids = false := by
        revert hm
        cases pyMemB url st.collection_ids <;> simp
      have hstep : travStep w mmax url st =
          travStepFetched mmax url { st with fetchLog := st.fetchLog ++ [url] }
            (fetch_json w url) := by
        unfold travStep
        rw [hcont, hm2, travStepChecked]
      obtain ⟨r, hf⟩ : ∃ r, fetch_json w url = r := ⟨_, rfl⟩
      rw [hf] at hstep
      cases r with
      | error e =>
        right; right; left
        refine ⟨hh, hm2, e, hf, ?_⟩
        rw [hstep, travStepFetched]
      | ok d =>
        rw [travStepFetched] at hstep
        obtain ⟨p, hp⟩ : ∃ p, processDoc d = p := ⟨_, rfl⟩
        rw [hp] at hstep
        cases p with
        | error u =>
          right; right; right; left
          refine ⟨hh, hm2, d, hf, by cases u; exact hp, ?_⟩
          rw [hstep, travStepProcessed]
        | ok pr =>
          obtain ⟨mids, cids⟩ := pr
          rw [travStepProcessed] at hstep
          obtain ⟨res, hu⟩ : ∃ res,
              pySetUpdate ({ st with fetchLog := st.fetchLog ++ [url] } :
                TravState).manifest_ids mids = res := ⟨_, rfl⟩
          rw [hu] at hstep
          obtain ⟨m2, flag⟩ := res
          cases flag with
          | true =>
            right; right; right; right; left
            refine ⟨hh, hm2, d, mids, cids, m2, hf, hp, hu, ?_⟩
            rw [hstep, travStepUpdated]
          | false =>
            by_cases hmr : maxReached mmax m2.length = true
            · right; right; right; right; right; left
              refine ⟨hh, hm2, d, mids, cids, m2, hf, hp, hu, hmr, ?_⟩
              rw [hstep, travStepUpdated]
              dsimp only
              rw [if_pos hmr]
            · have hmr2 : maxReached mmax m2.length = false := by
                revert hmr
                cases maxReached mmax m2.length <;> simp
              right; right; right; right; right; right
              refine ⟨hh, hm2, d, mids, cids, m2, hf, hp, hu, hmr2, ?_⟩
              rw [hstep, travStepUpdated]
              dsimp only
              rw [if_neg hmr]

theorem travStep_coll_mono (w : World) (mmax : Option Nat) (url : Json) (st : TravState) :
    ∀ x ∈ st.collection_ids, x ∈ (stepStateD st (travStep w mmax url st)).collection_ids := by
  intro x hx
  rcases travStep_cases w mmax url st with
    ⟨_, hs⟩ | ⟨_, _, hs⟩ | ⟨_, _, _, _, hs⟩ | ⟨_, _, _, _, _, hs⟩ |
      ⟨_, _, _, _, _, _, _, _, _, hs⟩ | ⟨_, _, _, _, _, _, _, _, _, _, hs⟩ |
      ⟨_, _, _, _, _, _, _, _, _, _, hs⟩ <;> rw [hs]
  · exact hx
  · exact hx
  · exact hx
  · exact hx
  · exact hx
  · exact hx
  · exact mem_pySetInsert_of_mem url hx

theorem travStep_log_ext (w : World) (mmax : Option Nat) (url : Json) (st : TravState) :
    (stepStateD st (travStep w mmax url st)).fetchLog = st.fetchLog ∨
      (stepStateD st (travStep w mmax url st)).fetchLog = st.fetchLog ++ [url] := by
  rcases travStep_cases w mmax url st with
    ⟨_, hs⟩ | ⟨_, _, hs⟩ | ⟨_, _, _, _, hs⟩ | ⟨_, _, _, _, _, hs⟩ |
      ⟨_, _, _, _, _, _, _, _, _, hs⟩ | ⟨_, _, _, _, _, _, _, _, _, _, hs⟩ |
      ⟨_, _, _, _, _, _, _, _, _, _, hs⟩ <;> rw [hs]
  · left; rfl
  · left; rfl
  · right; rfl
  · right; rfl
  · right; rfl
  · right; rfl
  · right; rfl

theorem travRun_coll_mono (w : World) (mmax : Option Nat) :
    ∀ (fuel : Nat) (st stf : TravState), travRun w mmax fuel st = some (.ok stf) →
    ∀ x ∈ st.collection_ids, x ∈ stf.collection_ids := by
  intro fuel
  induction fuel with
  | zero =>
    intro st stf h x hx
    rw [travRun] at h
    split at h
    · cases some_ok_inj h; exact hx
    · cases h
  | succ f ih =>
    intro st stf h x hx
    rw [travRun] at h
    split at h
    · cases some_ok_inj h; exact hx
    · rename_i url rest hq
      split at h
      case h_1 st2 hs =>
        have hm := travStep_coll_mono w mmax url { st with queue := rest } x hx
        rw [hs] at hm
        exact ih st2 stf h x hm
      case h_2 st2 hs =>
        cases some_ok_inj h
        have hm := travStep_coll_mono w mmax url { st with queue := rest } x hx
        rw [hs] at hm
        exact hm
      case h_3 hs => exact absurd h (by intro hc; exact some_err_not_ok hc)

theorem travRun_log_mono (w : World) (mmax : Option Nat) :
    ∀ (fuel : Nat) (st stf : TravState), travRun w mmax fuel st = some (.ok stf) →
    ∀ x ∈ st.fetchLog, x ∈ stf.fetchLog := by
  intro fuel
  induction fuel with
  | zero =>
    intro st stf h x hx
    rw [travRun] at h
    split at h
    · cases some_ok_inj h; exact hx
    · cases h
  | succ f ih =>
    intro st stf h x hx
    rw [travRun] at h
    split at h
    · cases some_ok_inj h; exact hx
    · rename_i url rest hq
      split at h
      case h_1 st2 hs =>
        have hm := travStep_log_ext w mmax url { st with queue := rest }
        rw [hs] at hm
        have hx2 : x ∈ st2.fetchLog := by
          rcases hm with hm | hm <;> simp only [stepStateD] at hm <;> rw [hm]
          · exact hx
          · exact List.mem_append_left _ hx
        exact ih st2 stf h x hx2
      case h_2 st2 hs =>
        cases some_ok_inj h
        have hm := travStep_log_ext w mmax url { st with queue := rest }
        rw [hs] at hm
        rcases hm with hm | hm <;> simp only [stepStateD] at hm <;> rw [hm]
        · exact hx
        · exact List.mem_append_left _ hx
      case h_3 hs => exact absurd h (by intro hc; exact some_err_not_ok hc)

theorem travRun_nodup_aux (w : World) (mmax : Option Nat) :
    ∀ (fuel : Nat) (st stf : TravState),
    travRun w mmax fuel st = some (.ok stf) →
    (∀ u, u ∈ stf.fetchLog → okFetched w u = true) →
    st.fetchLog.Nodup →
    (∀ u, u ∈ st.fetchLog → pyMemB u st.collection_ids = true) →
    stf.fetchLog.Nodup := by
  intro fuel
  induction fuel with
  | zero =>
    intro st stf h hok hnd hinv
    rw [travRun] at h
    split at h
    · cases some_ok_inj h; exact hnd
    · cases h
  | succ f ih =>
    intro st stf h hok hnd hinv
    rw [travRun] at h
    split at h
    · cases some_ok_inj h; exact hnd
    · rename_i url rest hq
      split at h
      case h_1 st2 hs2 =>
        rcases travStep_cases w mmax url { st with queue := rest } with
          ⟨hh, hs⟩ | ⟨hh, hv, hs⟩ | ⟨hh, hv, e, hf, hs⟩ | ⟨hh, hv, d, hf, hp, hs⟩ |
          ⟨hh, hv, d, mids, cids, m2, hf, hp, hu, hs⟩ |
          ⟨hh, hv, d, mids, cids, m2, hf, hp, hu, hmr, hs⟩ |
          ⟨hh, hv, d, mids, cids, m2, hf, hp, hu, hmr, hs⟩
        · cases hs2.symm.trans hs
        · have hst2 := StepRes.cont.inj (hs2.symm.trans hs)
          subst hst2
          exact ih _ stf h hok hnd hinv
        · have hst2 := StepRes.cont.inj (hs2.symm.trans hs)
          subst hst2
          have hmem : url ∈ stf.fetchLog :=
            travRun_log_mono w mmax f _ stf h url (by simp)
          have hco := hok url hmem
          simp [okFetched, hf] at hco
        · have hst2 := StepRes.cont.inj (hs2.symm.trans hs)
          subst hst2
          have hmem : url ∈ stf.fetchLog :=
            travRun_log_mono w mmax f _ stf h url (by simp)
          have hco := hok url hmem
          simp [okFetched, hf, hp] at hco
        · have hst2 := StepRes.cont.inj (hs2.symm.trans hs)
          subst hst2
          have hmem : url ∈ stf.fetchLog :=
            travRun_log_mono w mmax f _ stf h url (by simp)
          have hco := hok url hmem
          simp only [okFetched, hf, hp] at hco
          have hflag := pySetUpdate_all_hashable mids st.manifest_ids hco
          rw [hu] at hflag
          simp at hflag
        · cases hs2.symm.trans hs
        · have hst2 := StepRes.cont.inj (hs2.symm.trans hs)
          subst hst2
          have hnotlog : url ∉ st.fetchLog := by
            intro hm2
            rw [hinv url hm2] at hv
            cases hv
          apply ih _ stf h hok
          · simp only [List.nodup_append, List.nodup_cons]
            exact ⟨hnd, by simp, by simpa [List.disjoint_left] using hnotlog⟩
          · intro u hu2
            simp only [List.mem_append, List.mem_singleton] at hu2
            rcases hu2 with h1 | h2
            · exact pyMemB_insert_mono (hinv u h1)
            · subst h2
              exact pyMemB_insert_self _ hh
      case h_2 st2 hs2 =>
        cases some_ok_inj h
        rcases travStep_cases w mmax url { st with queue := rest } with
          ⟨hh, hs⟩ | ⟨hh, hv, hs⟩ | ⟨hh, hv, e, hf, hs⟩ | ⟨hh, hv, d, hf, hp, hs⟩ |
          ⟨hh, hv, d, mids, cids, m2, hf, hp, hu, hs⟩ |
          ⟨hh, hv, d, mids, cids, m2, hf, hp, hu, hmr, hs⟩ |
          ⟨hh, hv, d, mids, cids, m2, hf, hp, hu, hmr, hs⟩
        · cases hs2.symm.trans hs
        · cases hs2.symm.trans hs
        · cases hs2.symm.trans hs
        · cases hs2.symm.trans hs
        · cases hs2.symm.trans hs
        · have hst2 := StepRes.brk.inj (hs2.symm.trans hs)
          subst hst2
          have hnotlog : url ∉ st.fetchLog := by
            intro hm2
            rw [hinv url hm2] at hv
            cases hv
          simp only [List.nodup_append, List.nodup_cons]
          exact ⟨hnd, by simp, by simpa [List.disjoint_left] using hnotlog⟩
        · cases hs2.symm.trans hs
      case h_3 hs2 => exact absurd h (by intro hc; exact some_err_not_ok hc)

theorem travRun_empty_queue (w : World) (mmax : Option Nat) (fuel : Nat) (st : TravState)
    (hq : st.queue = []) : travRun w mmax fuel st = some (.ok st) := by
  cases fuel with
  | zero =>
    rw [travRun]
    split
    · rfl
    · rename_i url rest heq
      rw [hq] at heq
      cases heq
  | succ f =>
    rw [travRun]
    split
    · rfl
    · rename_i url rest heq
      rw [hq] at heq
      cases heq

theorem travRun_succ_cont (w : World) (mmax : Option Nat) (f : Nat) (st st2 : TravState)
    (url : Json) (rest : List Json) (hq : st.queue = url :: rest)
    (hs : travStep w mmax url { st with queue := rest } = .cont st2) :
    travRun w mmax (f + 1) st = travRun w mmax f st2 := by
  rw [travRun]
  split
  · rename_i heq
    rw [hq] at heq
    cases heq
  · rename_i url2 rest2 heq
    rw [hq] at heq
    injection heq with h1 h2
    subst h1
    subst h2
    rw [hs]

theorem travRun_succ_brk (w : World) (mmax : Option Nat) (f : Nat) (st st2 : TravState)
    (url : Json) (rest : List Json) (hq : st.queue = url :: rest)
    (hs : travStep w mmax url { st with queue := rest } = .brk st2) :
    travRun w mmax (f + 1) st = some (.ok st2) := by
  rw [travRun]
  split
  · rename_i heq
    rw [hq] at heq
    cases heq
  · rename_i url2 rest2 heq
    rw [hq] at heq
    injection heq with h1 h2
    subst h1
    subst h2
    rw [hs]

theorem travRun_succ_abort (w : World) (mmax : Option Nat) (f : Nat) (st : TravState)
    (url : Json) (rest : List Json) (hq : st.queue = url :: rest)
    (hs : travStep w mmax url { st with queue := rest } = .abort) :
    travRun w mmax (f + 1) st = some (.error ()) := by
  rw [travRun]
  split
  · rename_i heq
    rw [hq] at heq
    cases heq
  · rename_i url2 rest2 heq
    rw [hq] at heq
    injection heq with h1 h2
    subst h1
    subst h2
    rw [hs]

theorem pyTruncate_nil (mmax : Option Nat) : pyTruncate mmax [] = [] := by
  cases mmax <;> simp [pyTruncate]

/-! ## Claim theorems -/

/-- A world in which fetching the root URL "R" fails with a transport
error. -/
def wRootFail : World := [("R", .error .request)]

/-- C1, counterexample.  The claim says a fetch error on the root URL
propagates uncaught out of `get_manifests_and_collections_ids`.  In this
world the root fetch fails, yet the traversal completes normally and
returns empty results: the `except (requests.RequestException,
ValueError)` handler at iiif.py lines 207-209 catches the error for
every URL, the root included. -/
theorem c1_counterexample :
    fetch_json wRootFail (Json.str "R") = .error .request ∧
    get_manifests_and_collections_ids wRootFail (Json.str "R") none 5 =
      some (.ok ([], [])) :=
  ⟨rfl, by decide⟩

/-- C1, amended.  A fetch error on a string root URL is caught by the
engine like any other per-URL failure: the root is skipped, the loop
ends, and the call returns normally with empty manifest and collection
lists. -/
theorem c1_amended (w : World) (s : String) (mmax : Option Nat) (fuel : Nat)
    (hfail : ∃ e, fetch_json w (Json.str s) = .error e) :
    get_manifests_and_collections_ids w (Json.str s) mmax (fuel + 1) =
      some (.ok ([], [])) := by
  obtain ⟨e, he⟩ := hfail
  have hstep : travStep w mmax (Json.str s) (⟨[], [], [], []⟩ : TravState) =
      .cont ⟨[], [], [], [Json.str s]⟩ := by
    unfold travStep
    dsimp only
    have hc : pySetContains ([] : List Json) (Json.str s) = .ok false := by
      simp [pySetContains, hashable, pyMemB]
    rw [hc, travStepChecked, he]
    rfl
  unfold get_manifests_and_collections_ids
  rw [travRun_succ_cont w mmax fuel (initState (Json.str s)) ⟨[], [], [], [Json.str s]⟩
      (Json.str s) [] rfl hstep,
    travRun_empty_queue w mmax fuel _ rfl]
  simp [pyTruncate_nil, Except.map]

/-- C1, witness for the amended theorem at the concrete failing world. -/
theorem c1_amended_witness :
    get_manifests_and_collections_ids wRootFail (Json.str "R") none 2 =
      some (.ok ([], [])) :=
  c1_amended wRootFail "R" none 1 ⟨.request, rfl⟩

/-- A collection-kind child item with the given id. -/
def collItem (u : String) : Json :=
  Json.obj [("id", Json.str u), ("type", Json.str "Collection")]

/-- A manifest-kind child item with the given id. -/
def manItem (u : String) : Json :=
  Json.obj [("id", Json.str u), ("type", Json.str "Manifest")]

/-- A world in which two distinct parent collections "C1" and "C2" both
reference the collection "D", whose fetch fails. -/
def wDup : World :=
  [("R", .ok (Json.obj [("items", Json.arr [collItem "C1", collItem "C2"])])),
   ("C1", .ok (Json.obj [("items", Json.arr [collItem "D"])])),
   ("C2", .ok (Json.obj [("items", Json.arr [collItem "D"])]))]

/-- C2, counterexample.  The claim says a collection URL is fetched (i.e.
`fetch_json` is invoked on it) at most once per traversal even when it is
enqueued by several parents.  In `wDup` the URL "D" is enqueued by the
two distinct parents "C1" and "C2"; its fetch fails, so it is never
marked visited (iiif.py line 239 runs only on success), and the ghost
fetch log records two `fetch_json` invocations for "D". -/
theorem c2_counterexample :
    (travRun wDup none 10 (initState (Json.str "R"))).map
        (fun r => r.map TravState.fetchLog) =
      some (.ok [Json.str "R", Json.str "C1", Json.str "C2", Json.str "D", Json.str "D"]) ∧
    List.count (Json.str "D")
      [Json.str "R", Json.str "C1", Json.str "C2", Json.str "D", Json.str "D"] = 2 :=
  ⟨by decide, by decide⟩

/-- C2, amended.  Within one traversal call, a collection URL is fetched
at most once provided that every fetch that happened was successfully
fetched, cleanly extracted, *and* its extracted manifest ids were all
hashable (so the `manifest_ids.update` of line 217 could not raise
either): then each fetched URL is immediately marked visited and the
pop-time visited check blocks any refetch.  A URL whose fetch,
extraction or set update raises is never marked visited and may be
fetched again when enqueued by multiple parents. -/
theorem c2_amended (w : World) (mmax : Option Nat) (fuel : Nat) (root : Json)
    (stf : TravState)
    (hrun : travRun w mmax fuel (initState root) = some (.ok stf))
    (hok : ∀ u, u ∈ stf.fetchLog → okFetched w u = true) :
    ∀ u, List.count u stf.fetchLog ≤ 1 := by
  have hnd : stf.fetchLog.Nodup :=
    travRun_nodup_aux w mmax fuel (initState root) stf hrun hok
      (by simp [initState]) (by simp [initState])
  exact fun u => List.nodup_iff_count_le_one.mp hnd u

/-- A world with a single leaf collection that processes cleanly. -/
def wLeaf : World := [("R", .ok (Json.obj [("items", Json.arr [])]))]

/-- C2, witness for the amended theorem at a concrete benign world. -/
theorem c2_amended_witness :
    List.count (Json.str "R") [Json.str "R"] ≤ 1 :=
  c2_amended wLeaf none 2 (Json.str "R")
    ⟨[], [], [Json.str "R"], [Json.str "R"]⟩ (by decide) (by decide) (Json.str "R")

/-- A world whose root collection holds one manifest. -/
def wMax : World := [("R", .ok (Json.obj [("items", Json.arr [manItem "M1"])]))]

/-- A manifest-kind child item whose id is a (truthy, unhashable)
dict. -/
def badManItem : Json :=
  Json.obj [("id", Json.obj [("k", Json.str "v")]), ("type", Json.str "Manifest")]

/-- A world in which the manifest set reaches the threshold inside "C1"
(one good manifest id followed by a dict id, so `update` raises after
adding "M1"), while "C2" is still queued. -/
def wSkipCheck : World :=
  [("R", .ok (Json.obj [("items", Json.arr [collItem "C1", collItem "C2"])])),
   ("C1", .ok (Json.obj [("items", Json.arr [manItem "M1", badManItem])])),
   ("C2", .ok (Json.obj [("items", Json.arr [])]))]

/-- C3, counterexample.  The claim says the loop terminates as soon as
the manifest-set size reaches `N`.  With `max_manifests = 1`, processing
"C1" brings the set to size 1 ("M1" is added) but the following dict id
makes `manifest_ids.update` raise (caught at iiif.py line 242), so the
lines 219-221 check is *skipped*: the step returns `continue`, not
`break` (second conjunct), and the still-queued "C2" is fetched
afterwards (the final fetch log, first conjunct). -/
theorem c3_counterexample :
    travRun wSkipCheck (some 1) 10 (initState (Json.str "R")) =
      some (.ok ⟨[], [Json.str "M1"], [Json.str "R"],
        [Json.str "R", Json.str "C1", Json.str "C2"]⟩) ∧
    travStep wSkipCheck (some 1) (Json.str "C1")
        ⟨[Json.str "C2"], [], [Json.str "R"], [Json.str "R"]⟩ =
      .cont ⟨[Json.str "C2"], [Json.str "M1"], [Json.str "R"],
        [Json.str "R", Json.str "C1"]⟩ :=
  ⟨by decide, by decide⟩

/-- C3, amended.  With `max_manifests = N`: (i) whenever the traversal
returns normally, the returned manifest list has length at most `N` (the
final `[:N]` truncation, iiif.py line 246); (ii) as soon as a
`manifest_ids.update` *completes without raising* and brings the set
size to at least `N` (checked right after the update, lines 219-221),
the loop `break`s and the call returns at once, whatever URLs remain in
the queue.  When the update raises mid-way, that collection's check is
skipped and the traversal continues. -/
theorem c3_amended :
    (∀ (w : World) (root : Json) (N fuel : Nat) (ms cs : List Json),
        get_manifests_and_collections_ids w root (some N) fuel = some (.ok (ms, cs)) →
        ms.length ≤ N) ∧
    (∀ (w : World) (N : Nat) (url : Json) (q mans colls log : List Json)
        (d : Json) (mids cids m2 : List Json) (fuel : Nat),
        hashable url = true →
        pyMemB url colls = false →
        fetch_json w url = .ok d →
        processDoc d = .ok (mids, cids) →
        pySetUpdate mans mids = (m2, false) →
        maxReached (some N) m2.length = true →
        travRun w (some N) (fuel + 1) ⟨url :: q, mans, colls, log⟩ =
          some (.ok ⟨q, m2, colls, log ++ [url]⟩)) := by
  constructor
  · intro w root N fuel ms cs h
    unfold get_manifests_and_collections_ids at h
    cases hr : travRun w (some N) fuel (initState root) with
    | none => rw [hr] at h; cases h
    | some r =>
      rw [hr] at h
      cases r with
      | error u => simp [Except.map] at h
      | ok st =>
        simp only [Option.map_some', Except.map, Option.some_inj, Except.ok.injEq,
          Prod.mk.injEq] at h
        obtain ⟨h1, h2⟩ := h
        rw [← h1]
        simp [pyTruncate]
  · intro w N url q mans colls log d mids cids m2 fuel hh hv hf hp hu hm
    have hstep : travStep w (some N) url ⟨q, mans, colls, log⟩ =
        .brk ⟨q, m2, colls, log ++ [url]⟩ := by
      unfold travStep
      dsimp only
      have hc : pySetContains colls url = .ok false := by
        unfold pySetContains
        rw [if_pos hh, hv]
      rw [hc, travStepChecked, hf, travStepFetched, hp, travStepProcessed]
      dsimp only
      rw [hu, travStepUpdated]
      dsimp only
      rw [if_pos hm]
    exact travRun_succ_brk w (some N) fuel ⟨url :: q, mans, colls, log⟩ _ url q rfl hstep

/-- C3, witness at a concrete world with `max_manifests = 1`. -/
theorem c3_amended_witness : ([Json.str "M1"] : List Json).length ≤ 1 :=
  c3_amended.1 wMax (Json.str "R") 1 3 [Json.str "M1"] [] (by decide)

/-- Fields of a document whose `items` is present but empty, with a
legacy `collections` list alongside. -/
def dItemsEmptyFields : List (String × Json) :=
  [("items", Json.arr []), ("collections", Json.arr [collItem "C"])]

/-- The document built from `dItemsEmptyFields`. -/
def dItemsEmpty : Json := Json.obj dItemsEmptyFields

/-- C4, counterexample.  The claim says the `items` field is used for
classification whenever it is *present*.  Here `items` is present (and
empty), yet the engine classifies from the legacy `collections` list:
Python's `or` at iiif.py line 212 falls through on any *falsy* `items`
value, not only on a missing one. -/
theorem c4_counterexample :
    jlookup dItemsEmptyFields "items" = some (Json.arr []) ∧
    processDoc dItemsEmpty = .ok ([], [Json.str "C"]) :=
  ⟨by decide, by decide⟩

/-- C4, amended.  The `items` field wins only when present *and truthy*
(non-empty); when absent or falsy, the engine falls back to the Python
`+`-concatenation of the `collections` and `manifests` fields, each
defaulting to the empty list. -/
theorem c4_amended :
    (∀ (fs : List (String × Json)) (v : Json),
        jlookup fs "items" = some v → pyTruthy v = true →
        extractItems (Json.obj fs) = .ok v) ∧
    (∀ fs : List (String × Json),
        pyTruthy ((jlookup fs "items").getD Json.null) = false →
        extractItems (Json.obj fs) =
          pyAdd ((jlookup fs "collections").getD (Json.arr []))
                ((jlookup fs "manifests").getD (Json.arr []))) := by
  constructor
  · intro fs v hl ht
    rw [extractItems]
    rw [hl]
    simp only [Option.getD_some, ht, if_true]
  · intro fs hfalse
    rw [extractItems]
    rw [if_neg]
    rw [hfalse]
    simp

/-- C4, witness: a truthy `items` list wins even with legacy fields
present. -/
theorem c4_amended_witness :
    extractItems (Json.obj [("items", Json.arr [manItem "M1"]),
      ("collections", Json.arr [collItem "C"])]) = .ok (Json.arr [manItem "M1"]) :=
  c4_amended.1 [("items", Json.arr [manItem "M1"]), ("collections", Json.arr [collItem "C"])]
    (Json.arr [manItem "M1"]) (by decide) (by decide)

/-- A world whose manifest "M" declares the v2 context but has an empty
`sequences` array. -/
def wSeqEmpty : World :=
  [("M", .ok (Json.obj [("@context", Json.str v2ctx), ("sequences", Json.arr [])]))]

/-- C5, counterexample.  The claim says `get_manifest_images` never
raises for any input manifest document.  For a v2-context manifest with
`"sequences": []`, `data["sequences"][0]` raises `IndexError`
(iiif.py line 333), which the handler at lines 378-380 logs and
*re-raises* to the caller. -/
theorem c5_counterexample :
    get_manifest_images wSeqEmpty (Json.str "M") 768 2000 "jpg" false false = .error () := by
  decide

/-- C5, amended.  `get_manifest_images` returns a (possibly empty or
partial) list without raising for every successfully fetched manifest
object that is not a v2-context manifest: unrecognized contexts yield
`[]`, any v3-walk error yields `[]` (lines 326-328), and per-item
formatting failures only skip that item (lines 372-374).  Structural
errors in the v2 walk, fetch errors, and non-object bodies propagate to
the caller. -/
theorem c5_amended (w : World) (url : Json) (fs : List (String × Json))
    (width height : Int) (format : String) (ex um : Bool)
    (hfetch : fetch_json w url = .ok (Json.obj fs))
    (hctx : (jlookup fs "@context").getD Json.null ≠ Json.str v2ctx) :
    exOk (get_manifest_images w url width height format ex um) = true := by
  unfold get_manifest_images
  rw [hfetch, getManifestImagesFetched]
  by_cases h3 : (jlookup fs "@context").getD Json.null = Json.str v3ctx
  · rw [if_pos h3]
    cases hv3 : v3CollectIds (Json.obj fs) with
    | error u => rfl
    | ok ids => cases ids <;> rfl
  · rw [if_neg h3, if_neg hctx]
    rfl

/-- A world whose manifest "M" has no recognized context. -/
def wNoCtx : World := [("M", .ok (Json.obj [("label", Json.str "x")]))]

/-- C5, witness for the amended theorem at a concrete manifest without a
v2 context. -/
theorem c5_amended_witness :
    exOk (get_manifest_images wNoCtx (Json.str "M") 768 2000 "jpg" false false) = true :=
  c5_amended wNoCtx (Json.str "M") [("label", Json.str "x")] 768 2000 "jpg" false false
    rfl (by decide)

theorem classifyFilter_mem (needle : String) :
    ∀ (items out : List Json) (it : Json) (ty : String),
    classifyFilter needle items = .ok out →
    it ∈ items →
    normalize_item_type it = .ok ty →
    strContains needle ty = true →
    it ∈ out := by
  intro items
  induction items with
  | nil =>
    intro out it ty h hmem
    simp at hmem
  | cons x rest ih =>
    intro out it ty h hmem hty hcont
    rw [classifyFilter] at h
    split at h
    case h_1 ty0 tail hty0 htail =>
      injection h with h2
      subst h2
      rcases List.mem_cons.mp hmem with heq | hm2
      · subst heq
        rw [hty] at hty0
        injection hty0 with hty1
        subst hty1
        rw [if_pos hcont]
        exact List.mem_cons_self _ _
      · have hmem2 := ih tail it ty htail hm2 hty hcont
        split
        · exact List.mem_cons_of_mem _ hmem2
        · exact hmem2
    case h_2 => cases h
    case h_3 => cases h

theorem mapItemIds_mem :
    ∀ (items : List Json) (out : List (Option Json)) (it v : Json),
    mapItemIds items = .ok out →
    it ∈ items →
    normalize_item_id it = .ok (some v) →
    v ∈ out.filterMap id := by
  intro items
  induction items with
  | nil =>
    intro out it v h hmem
    simp at hmem
  | cons x rest ih =>
    intro out it v h hmem hid
    rw [mapItemIds] at h
    split at h
    case h_1 v0 tail hv0 htail =>
      injection h with h2
      subst h2
      rcases List.mem_cons.mp hmem with heq | hm2
      · subst heq
        rw [hid] at hv0
        injection hv0 with hv1
        subst hv1
        simp
      · have hmem2 := ih tail it v htail hm2 hid
        cases v0 with
        | none => exact hmem2
        | some a => exact List.mem_cons_of_mem a hmem2
    case h_2 => cases h
    case h_3 => cases h

/-- A child item whose normalized type contains both the substring
`manifest` and the substring `collection`. -/
def bothItem : Json :=
  Json.obj [("id", Json.str "X"), ("type", Json.str "CollectionOfManifests")]

/-- A collection document holding only `bothItem`. -/
def dBoth : Json := Json.obj [("items", Json.arr [bothItem])]

/-- A world whose root is `dBoth`; the child id "X" is not fetchable. -/
def wBoth : World := [("R", .ok dBoth)]

/-- C6, counterexample.  The claim says an item's derived kind is exactly
one of manifest/collection/unknown and that the manifest and collection
classifications are mutually exclusive.  The code classifies by substring
containment (`"manifest" in ...` / `"collection" in ...`, iiif.py lines
214 and 227), so an item typed `CollectionOfManifests` lands in *both*
outputs: its id "X" is contributed to the manifest set and, as a nested
collection, is enqueued and fetched. -/
theorem c6_counterexample :
    processDoc dBoth = .ok ([Json.str "X"], [Json.str "X"]) ∧
    travRun wBoth none 3 (initState (Json.str "R")) =
      some (.ok ⟨[], [Json.str "X"], [Json.str "R"], [Json.str "R", Json.str "X"]⟩) :=
  ⟨by decide, by decide⟩

/-- C6, amended.  Classification is by substring containment on the
normalized type (first element if the field is a list, `str()`,
lower-case, segment after the last colon): an item whose normalized type
contains `manifest` contributes its truthy id to the manifest ids, and
one whose normalized type contains `collection` contributes it to the
queued collection ids; an item whose type contains both substrings is
classified as both, so the two classifications are not mutually
exclusive. -/
theorem c6_amended (data iv : Json) (items : List Json) (it : Json) (ty : String)
    (v : Json) (mids cids : List Json)
    (hproc : processDoc data = .ok (mids, cids))
    (hextract : extractItems data = .ok iv)
    (hiter : pyIterate iv = .ok items)
    (hmem : it ∈ items)
    (hty : normalize_item_type it = .ok ty)
    (hid : normalize_item_id it = .ok (some v)) :
    (strContains "manifest" ty = true → v ∈ mids) ∧
    (strContains "collection" ty = true → v ∈ cids) := by
  unfold processDoc at hproc
  split at hproc
  case h_1 => cases hproc
  case h_2 iv2 hx =>
    rw [hextract] at hx
    injection hx with hx2
    subst hx2
    split at hproc
    case h_1 => cases hproc
    case h_2 items2 hi =>
      rw [hiter] at hi
      injection hi with hi2
      subst hi2
      split at hproc
      case h_1 => cases hproc
      case h_2 manifest_items hcm =>
        split at hproc
        case h_1 => cases hproc
        case h_2 manifest_ids0 hmm =>
          split at hproc
          case h_1 => cases hproc
          case h_2 nested_items hcc =>
            split at hproc
            case h_1 => cases hproc
            case h_2 nested_ids0 hmc =>
              injection hproc with hpair
              rw [Prod.mk.injEq] at hpair
              obtain ⟨hm1, hc1⟩ := hpair
              subst hm1
              subst hc1
              constructor
              · intro hcont
                exact mapItemIds_mem manifest_items manifest_ids0 it v hmm
                  (classifyFilter_mem "manifest" items manifest_items it ty hcm hmem hty hcont)
                  hid
              · intro hcont
                exact mapItemIds_mem nested_items nested_ids0 it v hmc
                  (classifyFilter_mem "collection" items nested_items it ty hcc hmem hty hcont)
                  hid

/-- C6, witness: the amended theorem applied at `dBoth`, placing "X" in
the manifest contribution. -/
theorem c6_amended_witness : Json.str "X" ∈ ([Json.str "X"] : List Json) :=
  (c6_amended dBoth (Json.arr [bothItem]) [bothItem] bothItem
      "collectionofmanifests" (Json.str "X") [Json.str "X"] [Json.str "X"]
      (by decide) (by decide) (by decide) (by decide) (by decide) (by decide)).1
    (by decide)

/-- C7.  The lenient pre-parse repair: the `re.sub(r',(\s*[\]\}])', ...)`
pass of `TrailingCommaJSONDecoder` (iiif.py lines 18-27) removes exactly
those commas that are immediately followed, ignoring whitespace, by a
closing array or object delimiter (judged against the original text),
and changes nothing else; the repaired text is then handed to the
ordinary JSON parser.  The left-to-right `re.sub` scan
(`fixTrailingCommas`) coincides with the spec-worded one-by-one comma
removal (`specStripCommas`) because a matched region contains no further
commas. -/
theorem c7_trailing_comma_repair :
    (∀ s : List Char, fixTrailingCommas s = specStripCommas s) ∧
    (∀ (parse : List Char → Option Json) (s : List Char),
        decodeLenient parse s = parse (specStripCommas s)) := by
  refine ⟨fixTrailingCommas_eq_spec, ?_⟩
  intro parse s
  unfold decodeLenient
  rw [fixTrailingCommas_eq_spec]

/-- C8, counterexample.  The claim says that whenever the root is
successfully fetched and its items successfully extracted, the returned
collection-id set contains the root.  With `max_manifests = 1` and a
root holding one manifest, the `break` at iiif.py line 221 fires *before*
`collection_ids.add(url)` at line 239, so the returned collection list is
empty and does not contain the root "R". -/
theorem c8_counterexample :
    get_manifests_and_collections_ids wMax (Json.str "R") (some 1) 3 =
      some (.ok ([Json.str "M1"], [])) ∧
    Json.str "R" ∉ ([] : List Json) :=
  ⟨by decide, by simp⟩

/-- C8, amended.  If the (hashable) root URL is successfully fetched and
extracted, the `manifest_ids.update` for the root's ids completes
without raising, and the max-manifests guard does not fire while the
root itself is being processed, then the returned collection-id set
contains the root (it is added at line 239 and the visited set only
grows). -/
theorem c8_amended (w : World) (mmax : Option Nat) (fuel : Nat) (root : Json)
    (d : Json) (mids cids m2 : List Json) (stf : TravState)
    (hh : hashable root = true)
    (hf : fetch_json w root = .ok d)
    (hp : processDoc d = .ok (mids, cids))
    (hu : pySetUpdate [] mids = (m2, false))
    (hm : maxReached mmax m2.length = false)
    (hrun : travRun w mmax (fuel + 1) (initState root) = some (.ok stf)) :
    root ∈ stf.collection_ids := by
  have hstep : travStep w mmax root (⟨[], [], [], []⟩ : TravState) =
      .cont ⟨[] ++ cids, m2, pySetInsert [] root, [] ++ [root]⟩ := by
    unfold travStep
    dsimp only
    have hc : pySetContains ([] : List Json) root = .ok false := by
      unfold pySetContains
      rw [if_pos hh]
      rfl
    rw [hc, travStepChecked, hf, travStepFetched, hp, travStepProcessed]
    dsimp only
    rw [hu, travStepUpdated]
    dsimp only
    rw [if_neg (by simp [hm])]
  rw [travRun_succ_cont w mmax fuel (initState root)
      ⟨[] ++ cids, m2, pySetInsert [] root, [] ++ [root]⟩ root [] rfl hstep] at hrun
  exact travRun_coll_mono w mmax fuel _ stf hrun root
    (by simp [pySetInsert, pyMemB])

/-- C8, witness for the amended theorem at a concrete leaf world. -/
theorem c8_amended_witness : Json.str "R" ∈ ([Json.str "R"] : List Json) :=
  c8_amended wLeaf none 1 (Json.str "R") (Json.obj [("items", Json.arr [])]) [] [] []
    ⟨[], [], [Json.str "R"], [Json.str "R"]⟩ (by decide) rfl (by decide) (by decide)
    (by decide) (by decide)

/-- C9.  For a successfully fetched manifest object whose `@context` is
absent or differs from both recognized context strings, the synthesizer
takes the `else` branch (iiif.py lines 348-350) and returns an empty
list without raising. -/
theorem c9_unrecognized_context (w : World) (url : Json) (fs : List (String × Json))
    (width height : Int) (format : String) (ex um : Bool)
    (hfetch : fetch_json w url = .ok (Json.obj fs))
    (h3 : (jlookup fs "@context").getD Json.null ≠ Json.str v3ctx)
    (h2 : (jlookup fs "@context").getD Json.null ≠ Json.str v2ctx) :
    get_manifest_images w url width height format ex um = .ok [] := by
  unfold get_manifest_images
  rw [hfetch, getManifestImagesFetched]
  rw [if_neg h3, if_neg h2]

/-- C9, witness at a context-free manifest. -/
theorem c9_unrecognized_context_witness :
    get_manifest_images wNoCtx (Json.str "M") 768 2000 "jpg" false false = .ok [] :=
  c9_unrecognized_context wNoCtx (Json.str "M") [("label", Json.str "x")]
    768 2000 "jpg" false false rfl (by decide) (by decide)

theorem maxReached_zero (n : Nat) : maxReached (some 0) n = false := by
  simp [maxReached]

theorem maxReached_none (n : Nat) : maxReached none n = false := rfl

theorem travStep_zero_limit (w : World) (url : Json) (st : TravState) :
    travStep w (some 0) url st = travStep w none url st := by
  unfold travStep
  cases hcv : pySetContains st.collection_ids url with
  | error u => rfl
  | ok b =>
    cases b with
    | true => rfl
    | false =>
      rw [travStepChecked, travStepChecked]
      cases hr : fetch_json w url with
      | error e => rfl
      | ok d =>
        rw [travStepFetched, travStepFetched]
        cases hp : processDoc d with
        | error u => rfl
        | ok pr =>
          obtain ⟨mids, cids⟩ := pr
          rw [travStepProcessed, travStepProcessed]
          cases hu : pySetUpdate
              ({ st with fetchLog := st.fetchLog ++ [url] } : TravState).manifest_ids
              mids with
          | mk m2 flag =>
            cases flag with
            | true => rfl
            | false =>
              rw [travStepUpdated, travStepUpdated]
              dsimp only
              rw [maxReached_zero, maxReached_none]

theorem travRun_zero_limit (w : World) :
    ∀ (fuel : Nat) (st : TravState),
    travRun w (some 0) fuel st = travRun w none fuel st := by
  intro fuel
  induction fuel with
  | zero => intro st; rfl
  | succ f ih =>
    intro st
    cases hq : st.queue with
    | nil => rw [travRun_empty_queue _ _ _ _ hq, travRun_empty_queue _ _ _ _ hq]
    | cons url rest =>
      cases hs : travStep w none url { st with queue := rest } with
      | cont st2 =>
        have hs0 : travStep w (some 0) url { st with queue := rest } = .cont st2 := by
          rw [travStep_zero_limit]
          exact hs
        rw [travRun_succ_cont w (some 0) f st st2 url rest hq hs0,
          travRun_succ_cont w none f st st2 url rest hq hs, ih]
      | brk st2 =>
        have hs0 : travStep w (some 0) url { st with queue := rest } = .brk st2 := by
          rw [travStep_zero_limit]
          exact hs
        rw [travRun_succ_brk w (some 0) f st st2 url rest hq hs0,
          travRun_succ_brk w none f st st2 url rest hq hs]
      | abort =>
        have hs0 : travStep w (some 0) url { st with queue := rest } = .abort := by
          rw [travStep_zero_limit]
          exact hs
        rw [travRun_succ_abort w (some 0) f st url rest hq hs0,
          travRun_succ_abort w none f st url rest hq hs]

/-- C10.  `max_manifests = 0` is falsy (iiif.py line 219), so the guard
never fires and the walk is identical to the unlimited one — the same
collections are visited and returned, and an aborting walk aborts
identically — while the final truncation `[:0]` (line 246) empties the
returned manifest list. -/
theorem c10_zero_limit (w : World) (root : Json) (fuel : Nat) :
    get_manifests_and_collections_ids w root (some 0) fuel =
      (get_manifests_and_collections_ids w root none fuel).map
        (fun r => r.map (fun p => (([] : List Json), p.2))) := by
  unfold get_manifests_and_collections_ids
  rw [travRun_zero_limit]
  cases travRun w none fuel (initState root) with
  | none => rfl
  | some r =>
    cases r with
    | error u => rfl
    | ok st => simp [pyTruncate, Except.map]
